import Mathlib

/-!
Shallow embedding of `src/backend/scrape.py` (an incremental mirror of a
paginated mod catalog).  Pure data flow is translated directly; the external
world (HTTP responses, the cookie-refresh script, the cookie file) is supplied
through explicit oracle arguments, and the observable side effects (network
requests, script invocations, sleeps, diagnostic dumps) are recorded in an
event trace.  The sqlite tables and the `mods` view are modelled as lists of
rows with an explicit monotonically assigned rowid.
-/

/-- One mod JSON document, restricted to the fields the script reads
(`modId`, `modName`, `modTypeId`, `createDate`, `lastUpdate`, `modTagIds`).
Index entries and detail records both take this shape. -/
structure ModRec where
  modId : Int
  modName : String
  modTypeId : Int
  createDate : String
  lastUpdate : String
  modTagIds : List Int
deriving DecidableEq

/-- The sqlite database: the append-only `mods_raw` table (rowid paired with
the record), the `mod_tags` table, and the next rowid sqlite will assign. -/
structure DB where
  mods_raw : List (Nat × ModRec)
  mod_tags : List (Nat × Int)
  nextRowId : Nat
deriving DecidableEq

/-- `Database.__init__` / `_init_db` on a fresh store: empty tables, first
rowid 1 (sqlite rowids start at 1). -/
def Database.init : DB :=
  { mods_raw := [], mod_tags := [], nextRowId := 1 }

/-- `Database.should_update`: SELECT on `mods_raw` with
`modId=:modId AND lastUpdate=:lastUpdate`; the result is `fetchone() is None`,
i.e. true iff no row matches both columns exactly. -/
def Database.should_update (db : DB) (modId : Int) (lastUpdate : String) : Bool :=
  !(db.mods_raw.any fun p => p.2.modId == modId && p.2.lastUpdate == lastUpdate)

/-- `Database.add`: INSERT one `mods_raw` row (rowid assigned by the store)
and one `mod_tags` row per entry of `modTagIds`, referencing that rowid. -/
def Database.add (db : DB) (m : ModRec) : DB :=
  { mods_raw := db.mods_raw ++ [(db.nextRowId, m)],
    mod_tags := db.mod_tags ++ m.modTagIds.map (fun t => (db.nextRowId, t)),
    nextRowId := db.nextRowId + 1 }

/-- Rows of `mods_raw` for one `modId` (one GROUP BY class). -/
def rowsFor (db : DB) (m : Int) : List (Nat × ModRec) :=
  db.mods_raw.filter fun p => p.2.modId == m

/-- `MAX(rowid)` over the rows of one `modId` (0 on an empty group, which the
view never queries since GROUP BY produces only inhabited groups). -/
def maxRowid (db : DB) (m : Int) : Nat :=
  ((rowsFor db m).map Prod.fst).foldl Nat.max 0

/-- The `mods` view:
`SELECT ... FROM mods_raw WHERE rowid IN (SELECT MAX(rowid) FROM mods_raw GROUP BY modId)`.
The subquery's value set is {MAX(rowid) of the group of q.modId | q a row}. -/
def Database.mods (db : DB) : List (Nat × ModRec) :=
  db.mods_raw.filter fun p => db.mods_raw.any fun q => p.1 == maxRowid db q.2.modId

/-- Well-formedness the store guarantees for reachable states: rowids are
assigned in strictly increasing order and stay below the next free rowid. -/
def Wf (db : DB) : Prop :=
  db.mods_raw.Pairwise (fun p q => p.1 < q.1) ∧
  ∀ p ∈ db.mods_raw, p.1 < db.nextRowId

/-- Sequentially `add` a list of records (left to right). -/
def applyAdds (db : DB) : List ModRec → DB
  | [] => db
  | m :: ms => applyAdds (Database.add db m) ms

/-- `PAGE_SIZE = 1000` from the script. -/
def PAGE_SIZE : Nat := 1000

/-- `RETRIES = 3` from the script. -/
def RETRIES : Nat := 3

/-- Fatal errors the script raises, carrying exactly what the exception
message interpolates (`Max retries exceeded for page {i}`,
`... when fetching total count`, `... for mod_id {mod_id}`, and the
`CalledProcessError` of a failing refresh script). -/
inductive Err where
  | maxRetriesPage (i : Nat)
  | maxRetriesCount
  | maxRetriesDetail (modId : Int)
  | refreshFailed
deriving DecidableEq

/-- Observable side effects: a POST to the Find endpoint (with its `start`
and `count` body fields and the cookies sent), a GET to the Detail endpoint,
an invocation of the cookie-refresh script, a blocking sleep, and the dump of
a raw response body to the diagnostic file `response{idx}_tmp.json`. -/
inductive Ev where
  | callFind (start : Nat) (count : Nat) (cookies : String)
  | callDetail (modId : Int) (cookies : String)
  | runScript
  | sleep (secs : Nat)
  | writeDiag (idx : Nat) (raw : String)
deriving DecidableEq

/-- `update_cookies`: run the refresh script (`check=True` raises on a
non-zero exit status and the error propagates; no retry), then reload the
cookie map from the cookie file.  `exitCode` and `cookieFile` are the oracle
for the external script and the file's content after it ran. -/
def update_cookies (exitCode : Nat) (cookieFile : String) : Except Err String × List Ev :=
  if exitCode = 0 then (Except.ok cookieFile, [Ev.runScript])
  else (Except.error Err.refreshFailed, [Ev.runScript])

/-- Oracle for one `fetch_page` request: the request raised (`fail`), or an
HTTP response with its status, the parsed `modList` field (`none` = body not
JSON / field missing, so `response.json()['modList']` raises), and, bundled,
what `update_cookies` would see if this attempt triggers it
(script exit code, cookie file content). -/
inductive PageResp where
  | fail
  | resp (status : Nat) (modList : Option (List ModRec)) (refreshOracle : Nat × String)
deriving DecidableEq

/-- Oracle for one `fetch_total_count` request: like `PageResp` but the read
field is `totalCount` (`none` = unparseable/missing, `some none` = JSON null,
`some (some n)` = a count), plus the raw response text for the diagnostic dump. -/
inductive CountResp where
  | fail
  | resp (status : Nat) (totalCount : Option (Option Nat)) (raw : String)
      (refreshOracle : Nat × String)
deriving DecidableEq

/-- Oracle for one `fetch_details` request: status, parsed JSON body
(`none` = `response.json()` raises), and the bundled refresh oracle. -/
inductive DetailResp where
  | fail
  | resp (status : Nat) (body : Option ModRec) (refreshOracle : Nat × String)
deriving DecidableEq

/-- The loop body of `fetch_page`: `for _ in range(RETRIES)` with the fuel as
the remaining iterations, the response oracle consumed one per request, and
the current global `COOKIES` threaded through.  Returns the result, the event
trace, and the final cookie state.  An exhausted oracle behaves like a failed
request. -/
def fetch_page_go (i : Nat) : Nat → List PageResp → String →
    Except Err (List ModRec) × List Ev × String
  | 0, _, ck => (Except.error (Err.maxRetriesPage i), [], ck)
  | n + 1, [], ck =>
    let r := fetch_page_go i n [] ck
    (r.1, Ev.callFind i PAGE_SIZE ck :: Ev.sleep 5 :: r.2.1, r.2.2)
  | n + 1, PageResp.fail :: rest, ck =>
    let r := fetch_page_go i n rest ck
    (r.1, Ev.callFind i PAGE_SIZE ck :: Ev.sleep 5 :: r.2.1, r.2.2)
  | n + 1, PageResp.resp s ml ro :: rest, ck =>
    if s == 401 then
      match update_cookies ro.1 ro.2 with
      | (Except.error e, evs2) => (Except.error e, Ev.callFind i PAGE_SIZE ck :: evs2, ck)
      | (Except.ok ck2, evs2) =>
        let r := fetch_page_go i n rest ck2
        (r.1, Ev.callFind i PAGE_SIZE ck :: (evs2 ++ r.2.1), r.2.2)
    else
      match ml with
      | some mods => (Except.ok mods, [Ev.callFind i PAGE_SIZE ck], ck)
      | none =>
        let r := fetch_page_go i n rest ck
        (r.1, Ev.callFind i PAGE_SIZE ck :: Ev.sleep 5 :: r.2.1, r.2.2)

/-- `fetch_page(i)`: up to `RETRIES` attempts. -/
def fetch_page (i : Nat) (rs : List PageResp) (ck : String) :
    Except Err (List ModRec) × List Ev × String :=
  fetch_page_go i RETRIES rs ck

/-- The loop body of `fetch_total_count`: `for i in range(1, RETRIES * 10)`,
with the remaining attempt indices as the list argument. -/
def fetch_total_count_go : List Nat → List CountResp → String →
    Except Err Nat × List Ev × String
  | [], _, ck => (Except.error Err.maxRetriesCount, [], ck)
  | i :: is, [], ck =>
    let r := fetch_total_count_go is [] ck
    (r.1, Ev.callFind 1 1 ck :: Ev.sleep (5 * i) :: r.2.1, r.2.2)
  | i :: is, CountResp.fail :: rest, ck =>
    let r := fetch_total_count_go is rest ck
    (r.1, Ev.callFind 1 1 ck :: Ev.sleep (5 * i) :: r.2.1, r.2.2)
  | i :: is, CountResp.resp s tc raw ro :: rest, ck =>
    if s == 401 then
      match update_cookies ro.1 ro.2 with
      | (Except.error e, evs2) => (Except.error e, Ev.callFind 1 1 ck :: evs2, ck)
      | (Except.ok ck2, evs2) =>
        let r := fetch_total_count_go is rest ck2
        (r.1, Ev.callFind 1 1 ck :: (evs2 ++ r.2.1), r.2.2)
    else
      match tc with
      | some (some n) => (Except.ok n, [Ev.callFind 1 1 ck], ck)
      | some none =>
        let r := fetch_total_count_go is rest ck
        (r.1, Ev.callFind 1 1 ck :: Ev.writeDiag i raw :: Ev.sleep (5 * i) :: r.2.1, r.2.2)
      | none =>
        let r := fetch_total_count_go is rest ck
        (r.1, Ev.callFind 1 1 ck :: Ev.sleep (5 * i) :: r.2.1, r.2.2)

/-- `fetch_total_count()`: attempt indices 1, 2, ..., `RETRIES * 10 - 1`. -/
def fetch_total_count (rs : List CountResp) (ck : String) :
    Except Err Nat × List Ev × String :=
  fetch_total_count_go (List.range' 1 (RETRIES * 10 - 1)) rs ck

/-- The loop body of `fetch_details`: same shape as `fetch_page_go` but a GET
to the Detail endpoint; any non-401 response whose body parses is returned
as-is (the status code is never inspected beyond the 401 check). -/
def fetch_details_go (modId : Int) : Nat → List DetailResp → String →
    Except Err ModRec × List Ev × String
  | 0, _, ck => (Except.error (Err.maxRetriesDetail modId), [], ck)
  | n + 1, [], ck =>
    let r := fetch_details_go modId n [] ck
    (r.1, Ev.callDetail modId ck :: Ev.sleep 5 :: r.2.1, r.2.2)
  | n + 1, DetailResp.fail :: rest, ck =>
    let r := fetch_details_go modId n rest ck
    (r.1, Ev.callDetail modId ck :: Ev.sleep 5 :: r.2.1, r.2.2)
  | n + 1, DetailResp.resp s body ro :: rest, ck =>
    if s == 401 then
      match update_cookies ro.1 ro.2 with
      | (Except.error e, evs2) => (Except.error e, Ev.callDetail modId ck :: evs2, ck)
      | (Except.ok ck2, evs2) =>
        let r := fetch_details_go modId n rest ck2
        (r.1, Ev.callDetail modId ck :: (evs2 ++ r.2.1), r.2.2)
    else
      match body with
      | some v => (Except.ok v, [Ev.callDetail modId ck], ck)
      | none =>
        let r := fetch_details_go modId n rest ck
        (r.1, Ev.callDetail modId ck :: Ev.sleep 5 :: r.2.1, r.2.2)

/-- `fetch_details(mod_id)`: up to `RETRIES` attempts. -/
def fetch_details (modId : Int) (rs : List DetailResp) (ck : String) :
    Except Err ModRec × List Ev × String :=
  fetch_details_go modId RETRIES rs ck

/-- `pages_count = (total_count - 1) // PAGE_SIZE + 1` from `main`. -/
def pages_count (total : Nat) : Nat :=
  (total - 1) / PAGE_SIZE + 1

/-- The page loop of `main`: `for i in range(1, pages_count + 1)` extending
`mod_list` with each fetched page; a raising `fetch_page` aborts the run.
`prs` supplies the response oracle for each page index. -/
def run_pages : List Nat → (Nat → List PageResp) → String →
    Except Err (List ModRec) × List Ev × String
  | [], _, ck => (Except.ok [], [], ck)
  | i :: is, prs, ck =>
    match fetch_page i (prs i) ck with
    | (Except.error e, evs, ck2) => (Except.error e, evs, ck2)
    | (Except.ok page, evs, ck2) =>
      let r := run_pages is prs ck2
      (r.1.map (fun rest => page ++ rest), evs ++ r.2.1, r.2.2)

/-- The index phase of `main`: if the partial-index file exists (`tmp = some
saved`) its content is the index; otherwise call `fetch_total_count` and
fetch pages `1 .. pages_count` sequentially. -/
def mainIndexPhase (tmp : Option (List ModRec)) (crs : List CountResp)
    (prs : Nat → List PageResp) (ck : String) :
    Except Err (List ModRec) × List Ev × String :=
  match tmp with
  | some saved => (Except.ok saved, [], ck)
  | none =>
    match fetch_total_count crs ck with
    | (Except.error e, evs, ck2) => (Except.error e, evs, ck2)
    | (Except.ok total, evs, ck2) =>
      let r := run_pages (List.range' 1 (pages_count total)) prs ck2
      (r.1, evs ++ r.2.1, r.2.2)

/-- The entry loop of `main`: for each index entry, if
`should_update(modId, lastUpdate)` then `fetch_details` and `add`; a raising
`fetch_details` aborts the run.  `drs` supplies the detail-response oracle per
mod id.  Returns result, trace, final cookies, final store. -/
def run_entries : List ModRec → (Int → List DetailResp) → String → DB →
    Except Err Unit × List Ev × String × DB
  | [], _, ck, db => (Except.ok (), [], ck, db)
  | e :: es, drs, ck, db =>
    if Database.should_update db e.modId e.lastUpdate then
      match fetch_details e.modId (drs e.modId) ck with
      | (Except.error err, evs, ck2) => (Except.error err, evs, ck2, db)
      | (Except.ok details, evs, ck2) =>
        let r := run_entries es drs ck2 (Database.add db details)
        (r.1, evs ++ r.2.1, r.2.2)
    else
      run_entries es drs ck db

/-- `main`, end to end: index phase then entry iteration over the obtained
index against the store `db`. -/
def scrape_main (tmp : Option (List ModRec)) (crs : List CountResp)
    (prs : Nat → List PageResp) (drs : Int → List DetailResp)
    (db : DB) (ck : String) :
    Except Err Unit × List Ev × DB :=
  match mainIndexPhase tmp crs prs ck with
  | (Except.error e, evs, _) => (Except.error e, evs, db)
  | (Except.ok mod_list, evs, ck2) =>
    let r := run_entries mod_list drs ck2 db
    (r.1, evs ++ r.2.1, r.2.2.2)

/-- An event is a network request. -/
def isNetCall : Ev → Bool
  | Ev.callFind _ _ _ => true
  | Ev.callDetail _ _ => true
  | _ => false

/-- Number of network requests in a trace. -/
def netCalls (evs : List Ev) : Nat :=
  evs.countP isNetCall

/-- An event is a request to the Find (search) endpoint, i.e. one made by
`fetch_total_count` or `fetch_page`. -/
def isFindCall : Ev → Bool
  | Ev.callFind _ _ _ => true
  | _ => false

/-- The cookies a network event carried, if it is one. -/
def evCookies : Ev → Option String
  | Ev.callFind _ _ ck => some ck
  | Ev.callDetail _ ck => some ck
  | _ => none

/-- A `fetch_page` attempt outcome is Transient in the spec's sense: not a
401, and not a success (request failed, or `modList` unreadable). -/
def pageRespTransient : PageResp → Bool
  | PageResp.fail => true
  | PageResp.resp s ml _ => !(s == 401) && ml.isNone

/-- A `fetch_total_count` attempt outcome is Transient: not a 401, and the
`totalCount` field is unreadable or null. -/
def countRespTransient : CountResp → Bool
  | CountResp.fail => true
  | CountResp.resp s tc _ _ =>
    !(s == 401) && (match tc with | some (some _) => false | _ => true)

/-- A `fetch_details` attempt outcome is Transient: not a 401, and the body
does not parse. -/
def detailRespTransient : DetailResp → Bool
  | DetailResp.fail => true
  | DetailResp.resp s body _ => !(s == 401) && body.isNone

/-- A concrete record used by witnesses. -/
def M0 : ModRec :=
  { modId := 42, modName := "m", modTypeId := 0, createDate := "2023-01-01",
    lastUpdate := "2024-01-01", modTagIds := [1, 2] }

/-- A second concrete record (same item, later timestamp) used by witnesses. -/
def M1 : ModRec :=
  { modId := 42, modName := "m", modTypeId := 0, createDate := "2023-01-01",
    lastUpdate := "2024-02-02", modTagIds := [3] }

/-- A concrete one-row store used by witnesses. -/
def dbW : DB := Database.add Database.init M0

/-! ## Shared helper lemmas -/

/-- A non-401 response whose body parses is returned by `fetch_details` as-is
on the first attempt. -/
theorem fetch_details_success (modId : Int) (s : Nat) (v : ModRec) (ro : Nat × String)
    (rest : List DetailResp) (ck : String) (h : (s == 401) = false) :
    fetch_details modId (DetailResp.resp s (some v) ro :: rest) ck
      = (Except.ok v, [Ev.callDetail modId ck], ck) := by
  show fetch_details_go modId (2 + 1) (DetailResp.resp s (some v) ro :: rest) ck = _
  simp [fetch_details_go, h]

/-! ## C1 -/

/-- C1: `should_update(itemId, candidateLastUpdatedAt)` returns false iff a
stored row with exactly that `(modId, lastUpdate)` pair exists; equivalently
it returns true for a brand-new `modId` and for a known `modId` with any
`lastUpdate` string not previously stored for it (exact string comparison). -/
theorem C1_should_update_iff (db : DB) (m : Int) (t : String) :
    Database.should_update db m t = false ↔
      ∃ p ∈ db.mods_raw, p.2.modId = m ∧ p.2.lastUpdate = t := by
  simp [Database.should_update, List.any_eq_true]

/-! ## C3 -/

/-- C3 counterexample: the claim says a 401-triggered refresh-and-retry does
not consume one of `fetch_page`'s 3 generic retry attempts.  Run `fetch_page`
on the response script [401 (refresh succeeds), transient, transient,
success]: if the 401 retry were free, three generic attempts would remain and
the fourth response would be reached and returned.  The code instead exhausts
its 3 loop iterations on the first three responses — only 3 network calls are
made and the call raises `Max retries exceeded for page 7`. -/
theorem C3_counterexample_page_401_consumes_slot :
    (fetch_page 7 [PageResp.resp 401 none (0, "ck2"), PageResp.fail, PageResp.fail,
        PageResp.resp 200 (some []) (0, "x")] "ck1").1
      = Except.error (Err.maxRetriesPage 7)
    ∧ netCalls (fetch_page 7 [PageResp.resp 401 none (0, "ck2"), PageResp.fail, PageResp.fail,
        PageResp.resp 200 (some []) (0, "x")] "ck1").2.1 = 3 :=
  ⟨rfl, rfl⟩

/-- C3 amended: on an HTTP 401 response, both `fetch_page` and
`fetch_total_count` invoke the credential refresh and retry immediately (the
trace shows the script run and no sleep between the two requests), and in
BOTH fetchers the 401-triggered retry consumes one attempt: `fetch_page`'s
remaining iteration count drops from `n + 1` to `n`, and `fetch_total_count`
moves on to the tail of its attempt-index list. -/
theorem C3_amended_401_consumes_slot :
    (∀ (i n : Nat) (ml : Option (List ModRec)) (rest : List PageResp) (ck c : String),
      fetch_page_go i (n + 1) (PageResp.resp 401 ml (0, c) :: rest) ck
        = ((fetch_page_go i n rest c).1,
           Ev.callFind i PAGE_SIZE ck :: Ev.runScript :: (fetch_page_go i n rest c).2.1,
           (fetch_page_go i n rest c).2.2))
    ∧ (∀ (j : Nat) (js : List Nat) (tc : Option (Option Nat)) (raw : String)
        (rest : List CountResp) (ck c : String),
      fetch_total_count_go (j :: js) (CountResp.resp 401 tc raw (0, c) :: rest) ck
        = ((fetch_total_count_go js rest c).1,
           Ev.callFind 1 1 ck :: Ev.runScript :: (fetch_total_count_go js rest c).2.1,
           (fetch_total_count_go js rest c).2.2)) :=
  ⟨fun _ _ _ _ _ _ => rfl, fun _ _ _ _ _ _ _ => rfl⟩

/-! ## C9 -/

/-- C9: an index entry whose `(modId, lastUpdate)` pair is already stored
triggers no detail fetch and no append; hence replaying a whole index against
a store that already contains every entry's pair performs no network call,
no append, and leaves the store (and cookie state) unchanged. -/
theorem C9_entry_processing_idempotent (es : List ModRec) (drs : Int → List DetailResp)
    (ck : String) (db : DB)
    (h : ∀ e ∈ es, Database.should_update db e.modId e.lastUpdate = false) :
    run_entries es drs ck db = (Except.ok (), [], ck, db) := by
  induction es with
  | nil => rfl
  | cons e es ih =>
    have he : Database.should_update db e.modId e.lastUpdate = false := h e (by simp)
    have h2 : ∀ x ∈ es, Database.should_update db x.modId x.lastUpdate = false :=
      fun x hx => h x (List.mem_cons_of_mem e hx)
    simp [run_entries, he, ih h2]

/-- C9 witness: a store already holding `M0`'s `(modId, lastUpdate)` pair,
replayed against the one-entry index `[M0]`. -/
theorem C9_witness :
    (∀ e ∈ [M0], Database.should_update dbW e.modId e.lastUpdate = false)
    ∧ run_entries [M0] (fun _ => []) "c" dbW = (Except.ok (), [], "c", dbW) :=
  ⟨by decide, C9_entry_processing_idempotent [M0] (fun _ => []) "c" dbW (by decide)⟩

/-! ## C10 -/

/-- C10: `fetch_details` treats any response whose status is not 401 and whose
body parses as JSON as a success — the parsed body is returned unchanged with
no status-code or schema validation; consequently, when the entry loop decides
to update, such an error body (e.g. a 404 or 500 JSON error document) is
appended to the store as the item's new version. -/
theorem C10_details_no_status_validation :
    (∀ (modId : Int) (s : Nat) (v : ModRec) (ro : Nat × String)
        (rest : List DetailResp) (ck : String), (s == 401) = false →
        fetch_details modId (DetailResp.resp s (some v) ro :: rest) ck
          = (Except.ok v, [Ev.callDetail modId ck], ck))
    ∧ (∀ (e : ModRec) (s : Nat) (v : ModRec) (ro : Nat × String) (db : DB) (ck : String),
        (s == 401) = false →
        Database.should_update db e.modId e.lastUpdate = true →
        run_entries [e] (fun _ => [DetailResp.resp s (some v) ro]) ck db
          = (Except.ok (), [Ev.callDetail e.modId ck], ck, Database.add db v)) := by
  constructor
  · intro modId s v ro rest ck h
    exact fetch_details_success modId s v ro rest ck h
  · intro e s v ro db ck h hsu
    simp [run_entries, hsu, fetch_details_success e.modId s v ro [] ck h]

/-- C10 witness: a 404 response with a JSON body is returned as the detail
record and appended to an empty store. -/
theorem C10_witness :
    ((404 == 401) = false
      ∧ fetch_details 42 [DetailResp.resp 404 (some M1) (0, "z")] "c"
          = (Except.ok M1, [Ev.callDetail 42 "c"], "c"))
    ∧ ((404 == 401) = false
      ∧ Database.should_update Database.init M0.modId M0.lastUpdate = true
      ∧ run_entries [M0] (fun _ => [DetailResp.resp 404 (some M1) (0, "z")]) "c" Database.init
          = (Except.ok (), [Ev.callDetail M0.modId "c"], "c", Database.add Database.init M1)) :=
  ⟨⟨by decide, C10_details_no_status_validation.1 42 404 M1 (0, "z") [] "c" (by decide)⟩,
   ⟨by decide, by decide,
    C10_details_no_status_validation.2 M0 404 M1 (0, "z") Database.init "c"
      (by decide) (by decide)⟩⟩

/-! ## C7 -/

/-- Transient-only response streams make `fetch_page_go` exhaust its fuel:
it raises the page-indexed fatal error after exactly `n` network requests. -/
theorem fetch_page_transient_exhaust (i : Nat) (n : Nat) :
    ∀ (rs : List PageResp) (ck : String),
      (∀ r ∈ rs, pageRespTransient r = true) →
      (fetch_page_go i n rs ck).1 = Except.error (Err.maxRetriesPage i)
      ∧ netCalls (fetch_page_go i n rs ck).2.1 = n := by
  induction n with
  | zero => intro rs ck _; exact ⟨rfl, rfl⟩
  | succ n ih =>
    intro rs ck h
    cases rs with
    | nil =>
      obtain ⟨ih1, ih2⟩ := ih [] ck (by simp)
      refine ⟨by simpa [fetch_page_go] using ih1, ?_⟩
      simp only [netCalls] at ih2 ⊢
      simp [fetch_page_go, List.countP_cons, isNetCall, ih2]
    | cons r rest =>
      cases r with
      | fail =>
        obtain ⟨ih1, ih2⟩ := ih rest ck (fun x hx => h x (List.mem_cons_of_mem _ hx))
        refine ⟨by simpa [fetch_page_go] using ih1, ?_⟩
        simp only [netCalls] at ih2 ⊢
        simp [fetch_page_go, List.countP_cons, isNetCall, ih2]
      | resp s ml ro =>
        have hr := h _ (List.mem_cons_self _ _)
        simp only [pageRespTransient, Bool.and_eq_true, Bool.not_eq_true',
          Option.isNone_iff_eq_none] at hr
        obtain ⟨hs, hml⟩ := hr
        subst hml
        obtain ⟨ih1, ih2⟩ := ih rest ck (fun x hx => h x (List.mem_cons_of_mem _ hx))
        refine ⟨by simpa [fetch_page_go, hs] using ih1, ?_⟩
        simp only [netCalls] at ih2 ⊢
        simp [fetch_page_go, hs, List.countP_cons, isNetCall, ih2]

/-- Same for `fetch_details_go`, with the mod-id-carrying fatal error. -/
theorem fetch_details_transient_exhaust (m : Int) (n : Nat) :
    ∀ (rs : List DetailResp) (ck : String),
      (∀ r ∈ rs, detailRespTransient r = true) →
      (fetch_details_go m n rs ck).1 = Except.error (Err.maxRetriesDetail m)
      ∧ netCalls (fetch_details_go m n rs ck).2.1 = n := by
  induction n with
  | zero => intro rs ck _; exact ⟨rfl, rfl⟩
  | succ n ih =>
    intro rs ck h
    cases rs with
    | nil =>
      obtain ⟨ih1, ih2⟩ := ih [] ck (by simp)
      refine ⟨by simpa [fetch_details_go] using ih1, ?_⟩
      simp only [netCalls] at ih2 ⊢
      simp [fetch_details_go, List.countP_cons, isNetCall, ih2]
    | cons r rest =>
      cases r with
      | fail =>
        obtain ⟨ih1, ih2⟩ := ih rest ck (fun x hx => h x (List.mem_cons_of_mem _ hx))
        refine ⟨by simpa [fetch_details_go] using ih1, ?_⟩
        simp only [netCalls] at ih2 ⊢
        simp [fetch_details_go, List.countP_cons, isNetCall, ih2]
      | resp s b ro =>
        have hr := h _ (List.mem_cons_self _ _)
        simp only [detailRespTransient, Bool.and_eq_true, Bool.not_eq_true',
          Option.isNone_iff_eq_none] at hr
        obtain ⟨hs, hb⟩ := hr
        subst hb
        obtain ⟨ih1, ih2⟩ := ih rest ck (fun x hx => h x (List.mem_cons_of_mem _ hx))
        refine ⟨by simpa [fetch_details_go, hs] using ih1, ?_⟩
        simp only [netCalls] at ih2 ⊢
        simp [fetch_details_go, hs, List.countP_cons, isNetCall, ih2]

/-- C7: after its 3 attempts all fail with Transient (non-401) outcomes,
`fetch_page` raises the fatal error carrying the page index and
`fetch_details` the fatal error carrying the item identifier, and in both
cases exactly 3 network requests were made — none after exhaustion, however
many further responses the network could have served. -/
theorem C7_exhaustion_fatal :
    (∀ (i : Nat) (rs : List PageResp) (ck : String),
      (∀ r ∈ rs, pageRespTransient r = true) →
      (fetch_page i rs ck).1 = Except.error (Err.maxRetriesPage i)
      ∧ netCalls (fetch_page i rs ck).2.1 = 3)
    ∧ (∀ (m : Int) (rs : List DetailResp) (ck : String),
      (∀ r ∈ rs, detailRespTransient r = true) →
      (fetch_details m rs ck).1 = Except.error (Err.maxRetriesDetail m)
      ∧ netCalls (fetch_details m rs ck).2.1 = 3) :=
  ⟨fun i rs ck h => fetch_page_transient_exhaust i RETRIES rs ck h,
   fun m rs ck h => fetch_details_transient_exhaust m RETRIES rs ck h⟩

/-- C7 witness: four consecutive network failures; the fourth is never
requested. -/
theorem C7_witness :
    ((∀ r ∈ [PageResp.fail, PageResp.fail, PageResp.fail, PageResp.fail],
        pageRespTransient r = true)
      ∧ (fetch_page 9 [PageResp.fail, PageResp.fail, PageResp.fail, PageResp.fail] "c").1
          = Except.error (Err.maxRetriesPage 9)
      ∧ netCalls (fetch_page 9 [PageResp.fail, PageResp.fail, PageResp.fail,
          PageResp.fail] "c").2.1 = 3)
    ∧ ((∀ r ∈ [DetailResp.fail], detailRespTransient r = true)
      ∧ (fetch_details 5 [DetailResp.fail] "c").1 = Except.error (Err.maxRetriesDetail 5)
      ∧ netCalls (fetch_details 5 [DetailResp.fail] "c").2.1 = 3) :=
  ⟨⟨by decide, (C7_exhaustion_fatal.1 9 _ "c" (by decide)).1,
      (C7_exhaustion_fatal.1 9 _ "c" (by decide)).2⟩,
   ⟨by decide, (C7_exhaustion_fatal.2 5 _ "c" (by decide)).1,
      (C7_exhaustion_fatal.2 5 _ "c" (by decide)).2⟩⟩

/-! ## C6 -/

/-- Each attempt of `fetch_total_count_go` makes exactly one network request,
so the request count is bounded by the number of attempt indices. -/
theorem ftc_netCalls_le :
    ∀ (js : List Nat) (rs : List CountResp) (ck : String),
      netCalls (fetch_total_count_go js rs ck).2.1 ≤ js.length := by
  intro js
  induction js with
  | nil => intro rs ck; simp [fetch_total_count_go, netCalls]
  | cons j js ih =>
    intro rs ck
    cases rs with
    | nil =>
      have h := ih [] ck
      simp only [netCalls] at h ⊢
      simp [fetch_total_count_go, List.countP_cons, isNetCall]
      omega
    | cons r rest =>
      cases r with
      | fail =>
        have h := ih rest ck
        simp only [netCalls] at h ⊢
        simp [fetch_total_count_go, List.countP_cons, isNetCall]
        omega
      | resp s tc raw ro =>
        by_cases hs : (s == 401) = true
        · obtain ⟨e, c⟩ := ro
          by_cases he : e = 0
          · have h := ih rest c
            simp only [netCalls] at h ⊢
            simp [fetch_total_count_go, hs, update_cookies, he, List.countP_cons,
              List.countP_append, isNetCall]
            omega
          · simp only [netCalls]
            simp [fetch_total_count_go, hs, update_cookies, he, List.countP_cons, isNetCall]
        · cases tc with
          | none =>
            have h := ih rest ck
            simp only [netCalls] at h ⊢
            simp [fetch_total_count_go, hs, List.countP_cons, isNetCall]
            omega
          | some t =>
            cases t with
            | none =>
              have h := ih rest ck
              simp only [netCalls] at h ⊢
              simp [fetch_total_count_go, hs, List.countP_cons, isNetCall]
              omega
            | some v =>
              simp only [netCalls]
              simp [fetch_total_count_go, hs, List.countP_cons, isNetCall]

/-- Transient-only response streams make `fetch_total_count_go` run through
every attempt index and raise the fatal error, one request per attempt. -/
theorem ftc_transient_exhaust :
    ∀ (js : List Nat) (rs : List CountResp) (ck : String),
      (∀ r ∈ rs, countRespTransient r = true) →
      (fetch_total_count_go js rs ck).1 = Except.error Err.maxRetriesCount
      ∧ netCalls (fetch_total_count_go js rs ck).2.1 = js.length := by
  intro js
  induction js with
  | nil => intro rs ck _; exact ⟨rfl, rfl⟩
  | cons j js ih =>
    intro rs ck h
    cases rs with
    | nil =>
      obtain ⟨ih1, ih2⟩ := ih [] ck (by simp)
      refine ⟨by simpa [fetch_total_count_go] using ih1, ?_⟩
      simp only [netCalls] at ih2 ⊢
      simp [fetch_total_count_go, List.countP_cons, isNetCall, ih2]
    | cons r rest =>
      cases r with
      | fail =>
        obtain ⟨ih1, ih2⟩ := ih rest ck (fun x hx => h x (List.mem_cons_of_mem _ hx))
        refine ⟨by simpa [fetch_total_count_go] using ih1, ?_⟩
        simp only [netCalls] at ih2 ⊢
        simp [fetch_total_count_go, List.countP_cons, isNetCall, ih2]
      | resp s tc raw ro =>
        have hr := h _ (List.mem_cons_self _ _)
        simp only [countRespTransient, Bool.and_eq_true, Bool.not_eq_true'] at hr
        obtain ⟨hs, htc⟩ := hr
        obtain ⟨ih1, ih2⟩ := ih rest ck (fun x hx => h x (List.mem_cons_of_mem _ hx))
        cases tc with
        | none =>
          refine ⟨by simpa [fetch_total_count_go, hs] using ih1, ?_⟩
          simp only [netCalls] at ih2 ⊢
          simp [fetch_total_count_go, hs, List.countP_cons, isNetCall, ih2]
        | some t =>
          cases t with
          | none =>
            refine ⟨by simpa [fetch_total_count_go, hs] using ih1, ?_⟩
            simp only [netCalls] at ih2 ⊢
            simp [fetch_total_count_go, hs, List.countP_cons, isNetCall, ih2]
          | some v => simp at htc

/-- C6: `fetch_total_count` makes at most 29 attempts (network requests); an
attempt whose response carries a null `totalCount` dumps the raw response
body to the diagnostic file indexed by the attempt number (`writeDiag j raw`
models `response{j}_tmp.json`), sleeps `5 * j` seconds, and retries; and a
run in which every attempt fails transiently performs all 29 attempts and
then raises the fatal error. -/
theorem C6_total_count_retry_policy :
    (∀ (rs : List CountResp) (ck : String), netCalls (fetch_total_count rs ck).2.1 ≤ 29)
    ∧ (∀ (j : Nat) (js : List Nat) (s : Nat) (raw : String) (ro : Nat × String)
        (rest : List CountResp) (ck : String), (s == 401) = false →
        fetch_total_count_go (j :: js) (CountResp.resp s (some none) raw ro :: rest) ck
          = ((fetch_total_count_go js rest ck).1,
             Ev.callFind 1 1 ck :: Ev.writeDiag j raw :: Ev.sleep (5 * j)
               :: (fetch_total_count_go js rest ck).2.1,
             (fetch_total_count_go js rest ck).2.2))
    ∧ (∀ (rs : List CountResp) (ck : String),
        (∀ r ∈ rs, countRespTransient r = true) →
        (fetch_total_count rs ck).1 = Except.error Err.maxRetriesCount
        ∧ netCalls (fetch_total_count rs ck).2.1 = 29) := by
  refine ⟨?_, ?_, ?_⟩
  · intro rs ck
    have h := ftc_netCalls_le (List.range' 1 (RETRIES * 10 - 1)) rs ck
    simpa [fetch_total_count] using h
  · intro j js s raw ro rest ck hs
    simp [fetch_total_count_go, hs]
  · intro rs ck h
    have := ftc_transient_exhaust (List.range' 1 (RETRIES * 10 - 1)) rs ck h
    simpa [fetch_total_count] using this

/-- C6 witness: a 200 response with a null count on the first attempt, then
nothing; the bound, the diagnostic-dump step, and the exhaustion all at
concrete inputs. -/
theorem C6_witness :
    netCalls (fetch_total_count [CountResp.fail] "c").2.1 ≤ 29
    ∧ ((200 == 401) = false
      ∧ fetch_total_count_go [4, 7] [CountResp.resp 200 (some none) "body" (0, "z")] "c"
          = ((fetch_total_count_go [7] [] "c").1,
             Ev.callFind 1 1 "c" :: Ev.writeDiag 4 "body" :: Ev.sleep 20
               :: (fetch_total_count_go [7] [] "c").2.1,
             (fetch_total_count_go [7] [] "c").2.2))
    ∧ ((∀ r ∈ [CountResp.resp 200 (some none) "body" (0, "z")], countRespTransient r = true)
      ∧ (fetch_total_count [CountResp.resp 200 (some none) "body" (0, "z")] "c").1
          = Except.error Err.maxRetriesCount) :=
  ⟨C6_total_count_retry_policy.1 [CountResp.fail] "c",
   ⟨by decide, C6_total_count_retry_policy.2.1 4 [7] 200 "body" (0, "z") [] "c" (by decide)⟩,
   ⟨by decide,
    (C6_total_count_retry_policy.2.2 [CountResp.resp 200 (some none) "body" (0, "z")] "c"
      (by decide)).1⟩⟩

/-! ## C5 -/

/-- `fetch_details_go` never issues a request to the Find (search) endpoint. -/
theorem fetch_details_no_find (m : Int) (n : Nat) :
    ∀ (rs : List DetailResp) (ck : String) (ev : Ev),
      ev ∈ (fetch_details_go m n rs ck).2.1 → isFindCall ev = false := by
  induction n with
  | zero => intro rs ck ev h; simp [fetch_details_go] at h
  | succ n ih =>
    intro rs ck ev h
    cases rs with
    | nil =>
      simp only [fetch_details_go, List.mem_cons] at h
      rcases h with rfl | rfl | h
      · rfl
      · rfl
      · exact ih [] ck ev h
    | cons r rest =>
      cases r with
      | fail =>
        simp only [fetch_details_go, List.mem_cons] at h
        rcases h with rfl | rfl | h
        · rfl
        · rfl
        · exact ih rest ck ev h
      | resp s b ro =>
        by_cases hs : (s == 401) = true
        · obtain ⟨e, c⟩ := ro
          by_cases he : e = 0
          · simp [fetch_details_go, hs, update_cookies, he] at h
            rcases h with rfl | rfl | h
            · rfl
            · rfl
            · exact ih rest c ev h
          · simp [fetch_details_go, hs, update_cookies, he] at h
            rcases h with rfl | rfl
            · rfl
            · rfl
        · cases b with
          | some v =>
            simp [fetch_details_go, hs] at h
            subst h
            rfl
          | none =>
            simp [fetch_details_go, hs] at h
            rcases h with rfl | rfl | h
            · rfl
            · rfl
            · exact ih rest ck ev h

/-- The entry loop only ever requests the Detail endpoint (and runs the
refresh script / sleeps): it never calls the Find endpoint. -/
theorem run_entries_no_find :
    ∀ (es : List ModRec) (drs : Int → List DetailResp) (ck : String) (db : DB) (ev : Ev),
      ev ∈ (run_entries es drs ck db).2.1 → isFindCall ev = false := by
  intro es
  induction es with
  | nil => intro drs ck db ev h; simp [run_entries] at h
  | cons e es ih =>
    intro drs ck db ev h
    by_cases hsu : Database.should_update db e.modId e.lastUpdate = true
    · rcases hfd : fetch_details e.modId (drs e.modId) ck with ⟨res, evs, ck2⟩
      cases res with
      | error err =>
        simp only [run_entries, hsu, if_true, hfd] at h
        have : ev ∈ (fetch_details e.modId (drs e.modId) ck).2.1 := by
          rw [hfd]; exact h
        exact fetch_details_no_find e.modId RETRIES (drs e.modId) ck ev this
      | ok details =>
        simp only [run_entries, hsu, if_true, hfd, List.mem_append] at h
        rcases h with h | h
        · have : ev ∈ (fetch_details e.modId (drs e.modId) ck).2.1 := by
            rw [hfd]; exact h
          exact fetch_details_no_find e.modId RETRIES (drs e.modId) ck ev this
        · exact ih drs ck2 (Database.add db details) ev h
    · have hsu2 : Database.should_update db e.modId e.lastUpdate = false :=
        Bool.not_eq_true _ ▸ Bool.eq_false_iff.mpr hsu
      simp only [run_entries, hsu2, Bool.false_eq_true, if_false] at h
      exact ih drs ck db ev h

/-- C5: when the partial-index file exists, the run loads the saved index and
proceeds directly to entry iteration: the index phase produces the saved list
with an empty event trace, the whole run reduces to the entry loop, and the
run's trace contains no request to the Find endpoint at all — neither a
`fetch_total_count` call (`start = 1, count = 1`) nor a `fetch_page` call. -/
theorem C5_resume_skips_index_build (saved : List ModRec) (crs : List CountResp)
    (prs : Nat → List PageResp) (drs : Int → List DetailResp) (db : DB) (ck : String) :
    mainIndexPhase (some saved) crs prs ck = (Except.ok saved, [], ck)
    ∧ scrape_main (some saved) crs prs drs db ck
        = ((run_entries saved drs ck db).1, (run_entries saved drs ck db).2.1,
           (run_entries saved drs ck db).2.2.2)
    ∧ ∀ ev ∈ (scrape_main (some saved) crs prs drs db ck).2.1, isFindCall ev = false := by
  refine ⟨rfl, rfl, ?_⟩
  intro ev h
  have h2 : ev ∈ (run_entries saved drs ck db).2.1 := h
  exact run_entries_no_find saved drs ck db ev h2

/-- C5 witness: a saved one-entry index processed against the empty store;
the single event is the detail request, not a Find call. -/
theorem C5_witness :
    Ev.callDetail 42 "c"
        ∈ (scrape_main (some [M0]) [] (fun _ => [])
            (fun _ => [DetailResp.resp 200 (some M0) (0, "z")]) Database.init "c").2.1
    ∧ isFindCall (Ev.callDetail 42 "c") = false :=
  ⟨by decide,
   (C5_resume_skips_index_build [M0] [] (fun _ => [])
      (fun _ => [DetailResp.resp 200 (some M0) (0, "z")]) Database.init "c").2.2
     (Ev.callDetail 42 "c") (by decide)⟩

/-! ## C4 -/

/-- When every page fetch succeeds on its first request, the page loop walks
its index list in order, one request per page, concatenating the page
contents in order. -/
theorem run_pages_all_ok (content : Nat → List ModRec) :
    ∀ (js : List Nat) (ck : String),
      run_pages js (fun j => [PageResp.resp 200 (some (content j)) (0, "")]) ck
        = (Except.ok (js.flatMap content), js.map (fun j => Ev.callFind j PAGE_SIZE ck), ck) := by
  intro js
  induction js with
  | nil => intro ck; rfl
  | cons j js ih =>
    intro ck
    have h1 : fetch_page j [PageResp.resp 200 (some (content j)) (0, "")] ck
        = (Except.ok (content j), [Ev.callFind j PAGE_SIZE ck], ck) := rfl
    simp [run_pages, h1, ih ck, Except.map]

/-- A 200 response with a non-null count makes `fetch_total_count` return it
on the first attempt. -/
theorem ftc_first_success (N : Nat) (raw : String) (ro : Nat × String) (ck : String) :
    fetch_total_count [CountResp.resp 200 (some (some N)) raw ro] ck
      = (Except.ok N, [Ev.callFind 1 1 ck], ck) := rfl

/-- C4: for any total `N ≥ 1` the computed page count `(N - 1) / 1000 + 1`
equals the ceiling `(N + 1000 - 1) / 1000`; the driver then requests exactly
the pages `1 .. pages_count N` in increasing order, one Find request each with
`count = 1000`, and concatenates the returned page contents in that order; in
particular `N = 2500` gives page count 3 and the page sequence `[1, 2, 3]`. -/
theorem C4_page_count_and_sequential_fetch (N : Nat) (h : 1 ≤ N) :
    pages_count N = (N + PAGE_SIZE - 1) / PAGE_SIZE
    ∧ (∀ (content : Nat → List ModRec) (raw : String) (ro : Nat × String) (ck : String),
        mainIndexPhase none [CountResp.resp 200 (some (some N)) raw ro]
            (fun j => [PageResp.resp 200 (some (content j)) (0, "")]) ck
          = (Except.ok ((List.range' 1 (pages_count N)).flatMap content),
             Ev.callFind 1 1 ck
               :: (List.range' 1 (pages_count N)).map (fun j => Ev.callFind j PAGE_SIZE ck),
             ck))
    ∧ pages_count 2500 = 3 ∧ List.range' 1 (pages_count 2500) = [1, 2, 3] := by
  refine ⟨?_, ?_, by decide, by decide⟩
  · simp only [pages_count, PAGE_SIZE]
    omega
  · intro content raw ro ck
    simp [mainIndexPhase, ftc_first_success, run_pages_all_ok content]

/-- C4 witness: the 2500-total scenario. -/
theorem C4_witness :
    1 ≤ 2500
    ∧ (pages_count 2500 = (2500 + PAGE_SIZE - 1) / PAGE_SIZE
       ∧ pages_count 2500 = 3 ∧ List.range' 1 (pages_count 2500) = [1, 2, 3]) :=
  ⟨by decide,
   (C4_page_count_and_sequential_fetch 2500 (by decide)).1,
   (C4_page_count_and_sequential_fetch 2500 (by decide)).2.2⟩

/-! ## C8 -/

/-- Within one `fetch_details` loop, as long as no credential refresh
happens (no script run in the trace), every network request carries the
cookie state the loop was entered with. -/
theorem fetch_details_cookie_stable (m : Int) (n : Nat) :
    ∀ (rs : List DetailResp) (ck : String),
      Ev.runScript ∉ (fetch_details_go m n rs ck).2.1 →
      ∀ ev ∈ (fetch_details_go m n rs ck).2.1,
        evCookies ev = none ∨ evCookies ev = some ck := by
  induction n with
  | zero => intro rs ck _ ev hev; simp [fetch_details_go] at hev
  | succ n ih =>
    intro rs ck hns ev hev
    cases rs with
    | nil =>
      simp only [fetch_details_go, List.mem_cons] at hev hns
      push_neg at hns
      rcases hev with rfl | rfl | hev
      · right; rfl
      · left; rfl
      · exact ih [] ck hns.2.2 ev hev
    | cons r rest =>
      cases r with
      | fail =>
        simp only [fetch_details_go, List.mem_cons] at hev hns
        push_neg at hns
        rcases hev with rfl | rfl | hev
        · right; rfl
        · left; rfl
        · exact ih rest ck hns.2.2 ev hev
      | resp s b ro =>
        by_cases hs : (s == 401) = true
        · obtain ⟨e, c⟩ := ro
          by_cases he : e = 0
          · exfalso
            apply hns
            simp [fetch_details_go, hs, update_cookies, he]
          · exfalso
            apply hns
            simp [fetch_details_go, hs, update_cookies, he]
        · cases b with
          | some v =>
            simp [fetch_details_go, hs] at hev
            subst hev
            right; rfl
          | none =>
            have hstep : fetch_details_go m (n + 1) (DetailResp.resp s none ro :: rest) ck
                = ((fetch_details_go m n rest ck).1,
                   Ev.callDetail m ck :: Ev.sleep 5 :: (fetch_details_go m n rest ck).2.1,
                   (fetch_details_go m n rest ck).2.2) := by
              simp [fetch_details_go, hs]
            rw [hstep] at hev hns
            simp only [List.mem_cons] at hev hns
            push_neg at hns
            rcases hev with rfl | rfl | hev
            · right; rfl
            · left; rfl
            · exact ih rest ck hns.2.2 ev hev

/-- C8: the credential refresh runs the external script exactly once and, on
a non-zero exit status, propagates a fatal error with no internal retry; on
success the credential material is reloaded from the cookie file; a failing
refresh inside a fetch loop aborts that fetch immediately (no further
request); after a successful 401-triggered refresh the loop continues with
the reloaded credentials, and as long as no further refresh intervenes every
subsequent request of the operation carries them. -/
theorem C8_refresh_policy :
    (∀ (e : Nat) (c : String), e ≠ 0 →
        update_cookies e c = (Except.error Err.refreshFailed, [Ev.runScript]))
    ∧ (∀ c : String, update_cookies 0 c = (Except.ok c, [Ev.runScript]))
    ∧ (∀ (i n : Nat) (ml : Option (List ModRec)) (rest : List PageResp) (ck c : String)
        (e : Nat), e ≠ 0 →
        fetch_page_go i (n + 1) (PageResp.resp 401 ml (e, c) :: rest) ck
          = (Except.error Err.refreshFailed,
             [Ev.callFind i PAGE_SIZE ck, Ev.runScript], ck))
    ∧ (∀ (m : Int) (n : Nat) (b : Option ModRec) (rest : List DetailResp) (ck c : String),
        fetch_details_go m (n + 1) (DetailResp.resp 401 b (0, c) :: rest) ck
          = ((fetch_details_go m n rest c).1,
             Ev.callDetail m ck :: Ev.runScript :: (fetch_details_go m n rest c).2.1,
             (fetch_details_go m n rest c).2.2))
    ∧ (∀ (m : Int) (rs : List DetailResp) (ck : String),
        Ev.runScript ∉ (fetch_details m rs ck).2.1 →
        ∀ ev ∈ (fetch_details m rs ck).2.1,
          evCookies ev = none ∨ evCookies ev = some ck) := by
  refine ⟨?_, fun c => rfl, ?_, fun m n b rest ck c => rfl, ?_⟩
  · intro e c he
    simp [update_cookies, he]
  · intro i n ml rest ck c e he
    simp [fetch_page_go, update_cookies, he]
  · intro m rs ck
    exact fetch_details_cookie_stable m RETRIES rs ck

/-- C8 witness: a refresh script exiting with status 1, and a refresh-free
detail fetch whose only request carries the entry cookies. -/
theorem C8_witness :
    ((1 : Nat) ≠ 0 ∧ update_cookies 1 "c" = (Except.error Err.refreshFailed, [Ev.runScript]))
    ∧ ((1 : Nat) ≠ 0
      ∧ fetch_page_go 3 1 [PageResp.resp 401 none (1, "c2")] "c"
          = (Except.error Err.refreshFailed,
             [Ev.callFind 3 PAGE_SIZE "c", Ev.runScript], "c"))
    ∧ (Ev.runScript ∉ (fetch_details 8 [DetailResp.resp 200 (some M0) (0, "z")] "c").2.1
      ∧ (evCookies (Ev.callDetail 8 "c") = none
         ∨ evCookies (Ev.callDetail 8 "c") = some "c")) :=
  ⟨⟨by decide, C8_refresh_policy.1 1 "c" (by decide)⟩,
   ⟨by decide, C8_refresh_policy.2.2.1 3 0 none [] "c" "c2" 1 (by decide)⟩,
   ⟨by decide,
    C8_refresh_policy.2.2.2.2 8 [DetailResp.resp 200 (some M0) (0, "z")] "c" (by decide)
      (Ev.callDetail 8 "c") (by decide)⟩⟩

/-! ## C2 -/

/-- The seed of a `foldl max` is below the result. -/
theorem le_foldl_max : ∀ (l : List Nat) (a : Nat), a ≤ l.foldl Nat.max a := by
  intro l
  induction l with
  | nil => intro a; exact Nat.le_refl a
  | cons x xs ih =>
    intro a
    exact Nat.le_trans (Nat.le_max_left a x) (ih (Nat.max a x))

/-- Every member of the list is below its `foldl max`. -/
theorem mem_le_foldl_max : ∀ (l : List Nat) (a x : Nat), x ∈ l → x ≤ l.foldl Nat.max a := by
  intro l
  induction l with
  | nil => intro a x hx; simp at hx
  | cons y ys ih =>
    intro a x hx
    rcases List.mem_cons.mp hx with rfl | hx2
    · exact Nat.le_trans (Nat.le_max_right a x) (le_foldl_max ys (Nat.max a x))
    · exact ih (Nat.max a y) x hx2

/-- A `foldl max` is either its seed or a member of the list. -/
theorem foldl_max_mem : ∀ (l : List Nat) (a : Nat),
    l.foldl Nat.max a = a ∨ l.foldl Nat.max a ∈ l := by
  intro l
  induction l with
  | nil => intro a; exact Or.inl rfl
  | cons y ys ih =>
    intro a
    rcases ih (Nat.max a y) with h | h
    · have hchoice : Nat.max a y = a ∨ Nat.max a y = y := by
        rcases Nat.le_total a y with hle | hle
        · exact Or.inr (Nat.max_eq_right hle)
        · exact Or.inl (Nat.max_eq_left hle)
      rcases hchoice with hm | hm
      · exact Or.inl (by rw [List.foldl_cons, h, hm])
      · refine Or.inr ?_
        rw [List.foldl_cons, h, hm]
        exact List.mem_cons_self y ys
    · exact Or.inr (List.mem_cons_of_mem y h)

/-- On a non-empty list of naturals, `foldl max 0` is attained by a member. -/
theorem foldl_max_zero_mem (l : List Nat) (h : l ≠ []) : l.foldl Nat.max 0 ∈ l := by
  rcases foldl_max_mem l 0 with h0 | hm
  · cases l with
    | nil => exact absurd rfl h
    | cons y ys =>
      have hy : y ≤ 0 := h0 ▸ mem_le_foldl_max (y :: ys) 0 y (List.mem_cons_self y ys)
      have : y = 0 := Nat.le_zero.mp hy
      rw [h0, ← this]
      exact List.mem_cons_self y ys
  · exact hm

/-- `maxRowid` is attained by some row of its group when the group is
non-empty. -/
theorem maxRowid_mem (db : DB) (m : Int) (h : rowsFor db m ≠ []) :
    ∃ p ∈ rowsFor db m, p.1 = maxRowid db m := by
  have hmap : (rowsFor db m).map Prod.fst ≠ [] := by
    simpa using h
  have hmem : maxRowid db m ∈ (rowsFor db m).map Prod.fst :=
    foldl_max_zero_mem _ hmap
  obtain ⟨p, hp, he⟩ := List.mem_map.mp hmem
  exact ⟨p, hp, he⟩

/-- Every row of a group has rowid at most the group's `maxRowid`. -/
theorem le_maxRowid (db : DB) (m : Int) (p : Nat × ModRec) (hp : p ∈ rowsFor db m) :
    p.1 ≤ maxRowid db m :=
  mem_le_foldl_max _ 0 p.1 (List.mem_map_of_mem Prod.fst hp)

/-- In a list whose rowids are strictly increasing, the rowid determines the
row. -/
theorem pairwise_fst_inj :
    ∀ (l : List (Nat × ModRec)), l.Pairwise (fun p q => p.1 < q.1) →
      ∀ p ∈ l, ∀ q ∈ l, p.1 = q.1 → p = q := by
  intro l
  induction l with
  | nil => intro _ p hp; simp at hp
  | cons a l ih =>
    intro hl p hp q hq he
    rw [List.pairwise_cons] at hl
    rcases List.mem_cons.mp hp with rfl | hp2
    · rcases List.mem_cons.mp hq with rfl | hq2
      · rfl
      · exact absurd he (Nat.ne_of_lt (hl.1 q hq2))
    · rcases List.mem_cons.mp hq with rfl | hq2
      · exact absurd he.symm (Nat.ne_of_lt (hl.1 p hp2))
      · exact ih hl.2 p hp2 q hq2 he

/-- The fresh store is well-formed. -/
theorem Wf_init : Wf Database.init := by
  constructor
  · simp [Database.init]
  · intro p hp
    simp [Database.init] at hp

/-- `add` preserves well-formedness: the new row gets a rowid strictly above
every existing one. -/
theorem Wf_add (db : DB) (m : ModRec) (h : Wf db) : Wf (Database.add db m) := by
  obtain ⟨h1, h2⟩ := h
  constructor
  · show (db.mods_raw ++ [(db.nextRowId, m)]).Pairwise (fun p q => p.1 < q.1)
    rw [List.pairwise_append]
    refine ⟨h1, List.pairwise_singleton _ _, ?_⟩
    intro p hp q hq
    simp only [List.mem_singleton] at hq
    subst hq
    exact h2 p hp
  · intro p hp
    simp only [Database.add, List.mem_append, List.mem_singleton] at hp
    show p.1 < db.nextRowId + 1
    rcases hp with hp | hp
    · exact Nat.lt_trans (h2 p hp) (Nat.lt_succ_self _)
    · subst hp
      exact Nat.lt_succ_self _

/-- A sequence of `add`s preserves well-formedness. -/
theorem Wf_applyAdds : ∀ (ms : List ModRec) (db : DB), Wf db → Wf (applyAdds db ms) := by
  intro ms
  induction ms with
  | nil => intro db h; exact h
  | cons x ms ih => intro db h; exact ih (Database.add db x) (Wf_add db x h)

/-- `add` extends one group of `rowsFor` by the new row (and no other). -/
theorem rowsFor_add (db : DB) (m : ModRec) (k : Int) :
    rowsFor (Database.add db m) k
      = rowsFor db k ++ if m.modId == k then [(db.nextRowId, m)] else [] := by
  by_cases hm : (m.modId == k) = true
  · simp [rowsFor, Database.add, List.filter_append, hm]
  · simp [rowsFor, Database.add, List.filter_append, hm]

/-- Appending records that all carry `modId = m` grows the group of `m` by
exactly their number. -/
theorem rowsFor_applyAdds_len (m : Int) :
    ∀ (ms : List ModRec) (db : DB), (∀ r ∈ ms, r.modId = m) →
      (rowsFor (applyAdds db ms) m).length = (rowsFor db m).length + ms.length := by
  intro ms
  induction ms with
  | nil => intro db _; simp [applyAdds]
  | cons x ms ih =>
    intro db h
    have hx : x.modId = m := h x (List.mem_cons_self x ms)
    have hrec := ih (Database.add db x) (fun r hr => h r (List.mem_cons_of_mem _ hr))
    rw [applyAdds, hrec, rowsFor_add]
    simp [hx]
    omega

/-- `applyAdds` only appends to `mods_raw`. -/
theorem applyAdds_append : ∀ (ms : List ModRec) (db : DB),
    ∃ l, (applyAdds db ms).mods_raw = db.mods_raw ++ l := by
  intro ms
  induction ms with
  | nil => intro db; exact ⟨[], by simp [applyAdds]⟩
  | cons x ms ih =>
    intro db
    obtain ⟨l, hl⟩ := ih (Database.add db x)
    refine ⟨(db.nextRowId, x) :: l, ?_⟩
    rw [applyAdds, hl]
    simp [Database.add]

/-- Existing rows survive any sequence of `add`s, in place. -/
theorem applyAdds_keeps_rows (ms : List ModRec) (db : DB) :
    (applyAdds db ms).mods_raw.take db.mods_raw.length = db.mods_raw := by
  obtain ⟨l, hl⟩ := applyAdds_append ms db
  rw [hl]
  exact List.take_left db.mods_raw l

/-- Under well-formedness, the SQL subquery membership test collapses to
"this row has the maximal rowid of its own modId group": the max of any other
group is attained by a row of that group, and distinct rows have distinct
rowids. -/
theorem mods_eq_own (db : DB) (hwf : Wf db) :
    Database.mods db = db.mods_raw.filter (fun p => p.1 == maxRowid db p.2.modId) := by
  unfold Database.mods
  apply List.filter_congr
  intro p hp
  by_cases hself : (p.1 == maxRowid db p.2.modId) = true
  · rw [hself]
    exact List.any_eq_true.mpr ⟨p, hp, hself⟩
  · have hany : (db.mods_raw.any fun q => p.1 == maxRowid db q.2.modId) = false := by
      rw [List.any_eq_false]
      intro q hq hbeq
      have hpk : p.1 = maxRowid db q.2.modId := by simpa using hbeq
      have hqmem : q ∈ rowsFor db q.2.modId := by
        simp [rowsFor, List.mem_filter, hq]
      have hne : rowsFor db q.2.modId ≠ [] := List.ne_nil_of_mem hqmem
      obtain ⟨r, hr, hre⟩ := maxRowid_mem db q.2.modId hne
      have hrmem : r ∈ db.mods_raw := (List.mem_filter.mp hr).1
      have hrp : r = p :=
        pairwise_fst_inj db.mods_raw hwf.1 r hrmem p hp (by rw [hre, hpk])
      subst hrp
      have hmod : r.2.modId = q.2.modId := by
        have := (List.mem_filter.mp hr).2
        simpa using this
      apply hself
      rw [beq_iff_eq, hmod]
      exact hpk
    rw [hany]
    exact ((Bool.not_eq_true _).mp hself).symm

/-- Restricting the view to one modId is the same as keeping, among that
modId's rows, those carrying the group's maximal rowid. -/
theorem mods_filter_modId (db : DB) (hwf : Wf db) (k : Int) :
    (Database.mods db).filter (fun p => p.2.modId == k)
      = (rowsFor db k).filter (fun p => p.1 == maxRowid db k) := by
  rw [mods_eq_own db hwf]
  unfold rowsFor
  rw [List.filter_filter, List.filter_filter]
  apply List.filter_congr
  intro p hp
  by_cases hk : (p.2.modId == k) = true
  · have hkk : p.2.modId = k := by simpa using hk
    simp [hk, hkk]
  · have hk2 : (p.2.modId == k) = false := (Bool.not_eq_true _).mp hk
    simp [hk2]

/-- In a list with strictly increasing rowids, filtering on an attained rowid
value keeps exactly one row, and its rowid is that value. -/
theorem filter_max_singleton :
    ∀ (l : List (Nat × ModRec)) (K : Nat),
      l.Pairwise (fun p q => p.1 < q.1) →
      (∃ p ∈ l, p.1 = K) →
      (l.filter (fun p => p.1 == K)).map Prod.fst = [K] := by
  intro l
  induction l with
  | nil => intro K _ hex; simp at hex
  | cons a l ih =>
    intro K hpw hex
    rw [List.pairwise_cons] at hpw
    by_cases ha : (a.1 == K) = true
    · have haK : a.1 = K := by simpa using ha
      have hrest : l.filter (fun p => p.1 == K) = [] := by
        rw [List.filter_eq_nil_iff]
        intro q hq
        have hlt : a.1 < q.1 := hpw.1 q hq
        simp only [beq_iff_eq, Bool.not_eq_true]
        have : q.1 ≠ K := by omega
        simpa using this
      rw [List.filter_cons, if_pos (by simpa using ha), hrest]
      simp [haK]
    · have ha2 : (a.1 == K) = false := (Bool.not_eq_true _).mp ha
      have hex2 : ∃ p ∈ l, p.1 = K := by
        obtain ⟨p, hp, he⟩ := hex
        rcases List.mem_cons.mp hp with rfl | hp2
        · exact absurd (show (p.1 == K) = true by simpa using he) ha
        · exact ⟨p, hp2, he⟩
      rw [List.filter_cons, if_neg (by simp [ha2])]
      exact ih K hpw.2 hex2

/-- C2: appending N detail records for one itemId adds exactly N rows to that
item's group while leaving every existing row untouched (append-only), and in
the resulting store the `mods` view restricted to any itemId present holds
exactly one row — the one carrying the maximal assigned rowid of that item's
group. -/
theorem C2_append_only_and_latest_view (db : DB) (hwf : Wf db) (ms : List ModRec)
    (m : Int) (hm : ∀ r ∈ ms, r.modId = m) :
    (rowsFor (applyAdds db ms) m).length = (rowsFor db m).length + ms.length
    ∧ (applyAdds db ms).mods_raw.take db.mods_raw.length = db.mods_raw
    ∧ ∀ k : Int, rowsFor (applyAdds db ms) k ≠ [] →
        ((Database.mods (applyAdds db ms)).filter (fun p => p.2.modId == k)).map Prod.fst
          = [maxRowid (applyAdds db ms) k] := by
  refine ⟨rowsFor_applyAdds_len m ms db hm, applyAdds_keeps_rows ms db, ?_⟩
  intro k hk
  have hwf2 : Wf (applyAdds db ms) := Wf_applyAdds ms db hwf
  rw [mods_filter_modId _ hwf2 k]
  apply filter_max_singleton
  · exact List.Pairwise.sublist (List.filter_sublist _) hwf2.1
  · exact maxRowid_mem _ _ hk

/-- C2 witness: two versions of item 42 appended to the fresh store; the view
keeps exactly the second (larger-rowid) row. -/
theorem C2_witness :
    Wf Database.init
    ∧ (∀ r ∈ [M0, M1], r.modId = 42)
    ∧ (rowsFor (applyAdds Database.init [M0, M1]) 42).length
        = (rowsFor Database.init 42).length + [M0, M1].length
    ∧ (rowsFor (applyAdds Database.init [M0, M1]) 42 ≠ []
       ∧ ((Database.mods (applyAdds Database.init [M0, M1])).filter
            (fun p => p.2.modId == 42)).map Prod.fst
          = [maxRowid (applyAdds Database.init [M0, M1]) 42]) :=
  ⟨Wf_init, by decide,
   (C2_append_only_and_latest_view Database.init Wf_init [M0, M1] 42 (by decide)).1,
   by decide,
   (C2_append_only_and_latest_view Database.init Wf_init [M0, M1] 42 (by decide)).2.2
     42 (by decide)⟩
